import Mathlib

/-!
Shallow embedding of the ETL/aggregation core of `src/app1.py` (an order
tracking dashboard).  Numeric cell values are modelled as rationals,
calendar dates as integer day numbers (`pd.Timestamp` at day granularity),
nullable values as `Option`.  A data frame is a list of records.
-/

namespace OrderDashboard

/-- One row of the cleaned table.  Fields mirror the sheet columns used by
the pipeline: `CONT.PERSON` (nullable), `ORD WT`, `ON_TIME DEL`, `LATE_DEL`
(numeric after coercion), `LATE DELIVERY REASON`, `ITEM NAME`, `PURITY`,
`ORD NO` (strings), `ODR DATE` and `DUE DATE` (nullable dates, `NaT ↦ none`). -/
structure Record where
  person : Option String
  ordWt : ℚ
  onTime : ℚ
  lateDel : ℚ
  reason : String
  item : String
  purity : String
  ordNo : String
  odrDate : Option ℤ
  dueDate : Option ℤ
  deriving DecidableEq, Repr

/-- `df['PENDING ORD']` (app1.py lines 98-100): `ORD WT - ON_TIME DEL -
LATE_DEL`, then `np.where(... < 0, 0, ...)`. -/
def pendingOrd (r : Record) : ℚ :=
  if r.ordWt - r.onTime - r.lateDel < 0 then 0 else r.ordWt - r.onTime - r.lateDel

/-- `df['LATE_DEL_%']` (app1.py lines 103-107): `np.where(ORD WT > 0,
LATE_DEL / ORD WT * 100, 0.0)`. -/
def lateDelPct (r : Record) : ℚ :=
  if r.ordWt > 0 then r.lateDel / r.ordWt * 100 else 0

/-- `df['LEAD TIME (DAYS)']` (app1.py line 116): `(DUE DATE - ODR DATE).dt.days`;
`NaT` in either operand propagates to `NaN` (modelled `none`). -/
def leadTimeDays (r : Record) : Option ℤ :=
  match r.dueDate, r.odrDate with
  | some d, some o => some (d - o)
  | _, _ => none

/-- Order-date filter predicate (app1.py lines 195-202): the mask is
`ODR DATE notna ∧ ODR DATE ≥ start ∧ ODR DATE < end + 1 day`. -/
def passesOrdDateFilter (s e : ℤ) (r : Record) : Bool :=
  match r.odrDate with
  | none => false
  | some d => decide (s ≤ d) && decide (d < e + 1)

/-- Due-date filter predicate (app1.py lines 232-239), same shape as the
order-date mask. -/
def passesDueDateFilter (s e : ℤ) (r : Record) : Bool :=
  match r.dueDate with
  | none => false
  | some d => decide (s ≤ d) && decide (d < e + 1)

/-- `df_filtered = df_filtered[mask]` for the order-date slicer. -/
def applyOrdDateFilter (s e : ℤ) (df : List Record) : List Record :=
  df.filter (passesOrdDateFilter s e)

/-- `df_filtered = df_filtered[mask]` for the due-date slicer. -/
def applyDueDateFilter (s e : ℤ) (df : List Record) : List Record :=
  df.filter (passesDueDateFilter s e)

/-- Sum of a numeric column over a record list (`Series.sum`). -/
def sumBy (f : Record → ℚ) (l : List Record) : ℚ := (l.map f).sum

/-- `df[df[PERSON_COL] == p].dropna(subset=[PERSON_COL])` (app1.py line 375):
equality with a concrete person `p` plus the (redundant) non-null check. -/
def personRows (df : List Record) (p : String) : List Record :=
  df.filter (fun r => r.person == some p && r.person.isSome)

/-- `persons = sorted(df[PERSON_COL].dropna().unique())` (app1.py line 358). -/
def personKeys (df : List Record) : List String :=
  List.insertionSort (· ≤ ·) (df.filterMap Record.person).dedup

/-- `ord_wt_sum` for one person row (app1.py line 380). -/
def ordWtSum (df : List Record) (p : String) : ℚ := sumBy Record.ordWt (personRows df p)

/-- `ontime_del_sum` (app1.py line 381). -/
def ontimeDelSum (df : List Record) (p : String) : ℚ := sumBy Record.onTime (personRows df p)

/-- `late_del_sum` (app1.py line 382). -/
def lateDelSum (df : List Record) (p : String) : ℚ := sumBy Record.lateDel (personRows df p)

/-- `pending_ord_sum = max(0, ord_wt_sum - ontime_del_sum - late_del_sum)`
(app1.py line 384) — recomputed from the group sums, not summed per record. -/
def pendingOrdSum (df : List Record) (p : String) : ℚ :=
  max 0 (ordWtSum df p - ontimeDelSum df p - lateDelSum df p)

/-- `late_del_percent_agg = (late_del_sum / ord_wt_sum) * 100 if ord_wt_sum > 0
else 0.0` (app1.py line 385). -/
def lateDelPercentAgg (df : List Record) (p : String) : ℚ :=
  if ordWtSum df p > 0 then lateDelSum df p / ordWtSum df p * 100 else 0

/-- `total_ord_wt = df["ORD WT"].sum()` (app1.py line 453). -/
def totalOrdWt (df : List Record) : ℚ := sumBy Record.ordWt df

/-- `total_ontime_del` (app1.py line 454). -/
def totalOntimeDel (df : List Record) : ℚ := sumBy Record.onTime df

/-- `total_late_del` (app1.py line 455). -/
def totalLateDel (df : List Record) : ℚ := sumBy Record.lateDel df

/-- `total_pending_ord = df["PENDING ORD"].sum()` (app1.py line 456) — the sum
of the per-record clamped pending values. -/
def totalPendingOrd (df : List Record) : ℚ := sumBy pendingOrd df

/-- `total_late_del_percent = (total_late_del / total_ord_wt) * 100 if
total_ord_wt > 0 else 0.0` (app1.py line 458). -/
def totalLateDelPercent (df : List Record) : ℚ :=
  if totalOrdWt df > 0 then totalLateDel df / totalOrdWt df * 100 else 0

/-- Arithmetic mean of the members' per-record `LATE_DEL_%` values — the
alternative aggregation the spec rules out; compared against the code's
ratio-of-sums. -/
def meanOfPerRecordPcts (l : List Record) : ℚ := sumBy lateDelPct l / l.length

/-- Two records of one person with unequal weights: ratio-of-sums 500/11,
mean-of-ratios 25. -/
def dfUnequal : List Record :=
  [⟨some "A", 100, 0, 50, "", "", "", "", none, none⟩,
   ⟨some "A", 10, 0, 0, "", "", "", "", none, none⟩]

/-- One group of `df.groupby(ITEM_COL)` (app1.py line 599). -/
def itemRows (df : List Record) (i : String) : List Record :=
  df.filter (fun r => r.item == i)

/-- The non-null `LEAD TIME (DAYS)` values of a group: pandas aggregation
skips `NaN` entries. -/
def validLeadTimes (l : List Record) : List ℤ := l.filterMap leadTimeDays

/-- `min_lead='min'` (app1.py line 600): minimum over the group's non-null
lead times, `NaN` (`none`) when there are none. -/
def minLead (df : List Record) (i : String) : Option ℤ :=
  (validLeadTimes (itemRows df i)).min?

/-- `max_lead='max'` (app1.py line 601). -/
def maxLead (df : List Record) (i : String) : Option ℤ :=
  (validLeadTimes (itemRows df i)).max?

/-- Arithmetic mean of a list of integers, `none` on the empty list. -/
def meanQ (l : List ℤ) : Option ℚ :=
  match l with
  | [] => none
  | v => some ((v.map fun z => (z : ℚ)).sum / v.length)

/-- `avg_lead='mean'` (app1.py line 602): mean over the group's non-null lead
times, `NaN` (`none`) for an all-null group. -/
def avgLead (df : List Record) (i : String) : Option ℚ :=
  meanQ (validLeadTimes (itemRows df i))

/-- One item group whose only record has a null order date. -/
def dfNullLead : List Record :=
  [⟨some "A", 1, 0, 0, "", "ROPE", "", "", none, some 5⟩]

/-- A data frame whose only record has a null person identifier. -/
def dfNullPerson : List Record :=
  [⟨none, 5, 0, 0, "", "", "", "", none, none⟩]

/-- One person whose second record is clamped: the group pending re-derives
`max(0, 10-5-0) = 5` while the grand total sums the per-record clamps
`10 + 0 = 10`. -/
def dfClampPerson : List Record :=
  [⟨some "A", 10, 0, 0, "", "", "", "", none, none⟩,
   ⟨some "A", 0, 5, 0, "", "", "", "", none, none⟩]

/-- A frame whose records all have a null `ODR DATE` (the date column exists
but holds no valid date). -/
def dfNoOrdDates : List Record :=
  [⟨some "A", 1, 0, 0, "", "", "", "", none, some 5⟩]

/-- Character class kept by the cleaning regex `[^\d\.\-]` on app1.py line 83:
digits, decimal points and minus signs, each in any position. -/
def numericCleanChar (c : Char) : Bool := c.isDigit || c == '.' || c == '-'

/-- `str.replace(r'[^\d\.\-]', '', regex=True)` (app1.py line 83). -/
def charClean (s : List Char) : List Char := s.filter numericCleanChar

/-- Value of a digit string. -/
def digitsVal (l : List Char) : ℕ := l.foldl (fun a c => a * 10 + (c.toNat - 48)) 0

/-- `pd.to_numeric` on an unsigned cleaned string: digits with at most one
decimal point and at least one digit; anything else fails. -/
def parseUnsigned? (t : List Char) : Option ℚ :=
  match t.splitOn '.' with
  | [a] =>
      if a.all Char.isDigit && !a.isEmpty then some (digitsVal a : ℚ) else none
  | [a, b] =>
      if a.all Char.isDigit && b.all Char.isDigit && !(a.isEmpty && b.isEmpty) then
        some ((digitsVal a : ℚ) + (digitsVal b : ℚ) / 10 ^ b.length)
      else none
  | _ => none

/-- `pd.to_numeric(..., errors="coerce")` on a cleaned string: an optional
leading minus sign then an unsigned number; failure is `none` (`NaN`). -/
def parseNum? (s : List Char) : Option ℚ :=
  match s with
  | '-' :: t => (parseUnsigned? t).map (fun q => -q)
  | t => parseUnsigned? t

/-- The numeric coercion of one string cell (app1.py lines 83-84): clean,
parse, and `fillna(0)`. -/
def coerceNumeric (s : List Char) : ℚ := (parseNum? (charClean s)).getD 0

/-- The cleaning step as the spec words it (for comparison with `charClean`):
keep digits and decimal points anywhere, but a minus sign only in leading
position. -/
def specLeadingMinusClean (s : List Char) : List Char :=
  match s with
  | '-' :: t => '-' :: t.filter (fun c => c.isDigit || c == '.')
  | t => t.filter (fun c => c.isDigit || c == '.')

/-- Numeric coercion as the spec words it: spec cleaning, then the same
parse-or-zero step. -/
def specCoerceNumeric (s : List Char) : ℚ := (parseNum? (specLeadingMinusClean s)).getD 0

/-- One column of a table: a label plus its cells, top to bottom.  A pandas
frame is modelled column-major, which makes `df.loc[:, ~df.columns.duplicated()]`
a plain list filter. -/
structure Column where
  label : String
  cells : List String
  deriving DecidableEq, Repr

/-- Whitespace stripped by `str.strip()`. -/
def isSpaceChar (c : Char) : Bool := c == ' ' || c == '\t' || c == '\n' || c == '\r'

/-- `str.strip()` on one label. -/
def stripStr (s : String) : String :=
  ⟨((s.toList.dropWhile isSpaceChar).reverse.dropWhile isSpaceChar).reverse⟩

/-- Row count of a column-major table. -/
def nRows (t : List Column) : ℕ :=
  match t with
  | [] => 0
  | c :: _ => c.cells.length

/-- Header promotion (app1.py lines 66-73): an empty or one-row frame yields
an empty result; otherwise row index 1 becomes the labels (`df.columns =
df.iloc[1]`) and the first two rows are dropped (`df = df[2:]`). -/
def promoteHeader (t : List Column) : List Column :=
  if nRows t < 2 then []
  else t.map (fun c => ⟨c.cells.getD 1 "", c.cells.drop 2⟩)

/-- `df.columns.astype(str).str.strip()` (app1.py line 76). -/
def stripCols (t : List Column) : List Column :=
  t.map (fun c => ⟨stripStr c.label, c.cells⟩)

/-- `df.loc[:, ~df.columns.duplicated()]` (app1.py line 77): keep a column
only when its label has not appeared in an earlier column. -/
def dedupCols : List Column → List String → List Column
  | [], _ => []
  | c :: cs, seen =>
      if c.label ∈ seen then dedupCols cs seen else c :: dedupCols cs (c.label :: seen)

/-- Header normalization of app1.py lines 66-77: promotion, label strip,
first-occurrence dedup.  (`df.dropna(axis=1, how="all")` on line 70 is the
identity on the all-string grids `get_all_values` returns, so it is not
modelled as a separate stage.) -/
def normalizeHeader (t : List Column) : List Column :=
  dedupCols (stripCols (promoteHeader t)) []

/-- The claim's notion of an already-normalized table: duplicate-free,
already-stripped labels and a non-blank first row. -/
def isNormalizedTable (t : List Column) : Bool :=
  decide ((t.map Column.label).Nodup) &&
    t.all (fun c => stripStr c.label == c.label) &&
    !(decide (nRows t ≠ 0) && t.all (fun c => stripStr (c.cells.headD "") == ""))

/-- A one-column normalized table with three data rows. -/
def tNormalized : List Column := [⟨"A", ["x", "y", "z"]⟩]

end OrderDashboard

namespace OrderDashboard

lemma pendingOrd_eq_max (r : Record) :
    pendingOrd r = max 0 (r.ordWt - r.onTime - r.lateDel) := by
  unfold pendingOrd
  by_cases h : r.ordWt - r.onTime - r.lateDel < 0
  · rw [if_pos h, max_eq_left h.le]
  · rw [if_neg h, max_eq_right (not_lt.mp h)]

/-- C3: after derivation, `PENDING ORD` equals `ORD WT - ON_TIME DEL - LATE_DEL`
clamped to zero from below, hence is nonnegative for every record whatever the
signs of the inputs. -/
theorem pending_is_clamped_difference (r : Record) :
    pendingOrd r = max 0 (r.ordWt - r.onTime - r.lateDel) ∧ 0 ≤ pendingOrd r := by
  refine ⟨pendingOrd_eq_max r, ?_⟩
  rw [pendingOrd_eq_max r]
  exact le_max_left _ _

/-- C4: a record passes the order-date (resp. due-date) filter for window
`[s, e]` iff its value in that column is non-null and lies in
`s ≤ value < e + 1 day`. -/
theorem date_filter_bounds (s e : ℤ) (r : Record) :
    (passesOrdDateFilter s e r = true ↔
      ∃ d, r.odrDate = some d ∧ s ≤ d ∧ d < e + 1) ∧
    (passesDueDateFilter s e r = true ↔
      ∃ d, r.dueDate = some d ∧ s ≤ d ∧ d < e + 1) := by
  constructor
  · cases h : r.odrDate with
    | none => simp [passesOrdDateFilter, h]
    | some d => simp [passesOrdDateFilter, h, and_assoc]
  · cases h : r.dueDate with
    | none => simp [passesDueDateFilter, h]
    | some d => simp [passesDueDateFilter, h, and_assoc]

/-- C9: zero order weight never divides.  Per record, `ORD WT = 0` falls into
the `np.where` else-branch and yields exactly `0`; the grouped and grand-total
percentages carry the same `> 0` guard, so a zero weight sum also yields `0`. -/
theorem zero_ord_wt_late_pct_zero :
    (∀ r : Record, r.ordWt = 0 → lateDelPct r = 0) ∧
    (∀ (df : List Record) (p : String), ordWtSum df p = 0 → lateDelPercentAgg df p = 0) ∧
    (∀ df : List Record, totalOrdWt df = 0 → totalLateDelPercent df = 0) := by
  refine ⟨fun r h => ?_, fun df p h => ?_, fun df h => ?_⟩
  · unfold lateDelPct
    rw [h, if_neg (lt_irrefl 0)]
  · unfold lateDelPercentAgg
    rw [h, if_neg (lt_irrefl 0)]
  · unfold totalLateDelPercent
    rw [h, if_neg (lt_irrefl 0)]

/-- Witness for C9 at a concrete record and data frame. -/
theorem zero_ord_wt_late_pct_zero_witness :
    lateDelPct ⟨some "A", 0, 0, 7, "", "", "", "", none, none⟩ = 0 ∧
    totalLateDelPercent [⟨some "A", 0, 0, 7, "", "", "", "", none, none⟩] = 0 :=
  ⟨zero_ord_wt_late_pct_zero.1 ⟨some "A", 0, 0, 7, "", "", "", "", none, none⟩ rfl,
   zero_ord_wt_late_pct_zero.2.2 [⟨some "A", 0, 0, 7, "", "", "", "", none, none⟩]
     (by simp [totalOrdWt, sumBy])⟩

/-- C2: group and grand-total late percentages are ratios of sums —
`(Σ late / Σ ord) * 100` over the summed member values — and differ from the
arithmetic mean of per-record percentages on a concrete unequal-weight group. -/
theorem late_pct_is_ratio_of_sums :
    (∀ (df : List Record) (p : String), 0 < ordWtSum df p →
      lateDelPercentAgg df p = lateDelSum df p / ordWtSum df p * 100) ∧
    (∀ df : List Record, 0 < totalOrdWt df →
      totalLateDelPercent df = totalLateDel df / totalOrdWt df * 100) ∧
    lateDelPercentAgg dfUnequal "A" ≠ meanOfPerRecordPcts (personRows dfUnequal "A") := by
  refine ⟨fun df p h => ?_, fun df h => ?_, ?_⟩
  · unfold lateDelPercentAgg
    rw [if_pos h]
  · unfold totalLateDelPercent
    rw [if_pos h]
  · norm_num [lateDelPercentAgg, ordWtSum, lateDelSum, meanOfPerRecordPcts, personRows,
      sumBy, lateDelPct, dfUnequal]

/-- Witness for C2 at the concrete unequal-weight group. -/
theorem late_pct_is_ratio_of_sums_witness :
    lateDelPercentAgg dfUnequal "A" = lateDelSum dfUnequal "A" / ordWtSum dfUnequal "A" * 100 :=
  late_pct_is_ratio_of_sums.1 dfUnequal "A"
    (by norm_num [ordWtSum, personRows, sumBy, dfUnequal])

/-- C7: `LEAD TIME (DAYS)` is `DUE DATE - ODR DATE` in whole days and is null
exactly when a date is null; per-item min/max/mean ignore null lead times
(adding a null-lead record to a group changes no statistic) and an all-null
group reports null statistics, not zero. -/
theorem lead_time_null_semantics :
    (∀ r : Record, leadTimeDays r = none ↔ (r.odrDate = none ∨ r.dueDate = none)) ∧
    (∀ (r : Record) (o d : ℤ), r.odrDate = some o → r.dueDate = some d →
      leadTimeDays r = some (d - o)) ∧
    (∀ (df : List Record) (i : String), (∀ r ∈ itemRows df i, leadTimeDays r = none) →
      minLead df i = none ∧ maxLead df i = none ∧ avgLead df i = none) ∧
    (∀ (df : List Record) (i : String) (r : Record), leadTimeDays r = none →
      minLead (r :: df) i = minLead df i ∧ maxLead (r :: df) i = maxLead df i ∧
      avgLead (r :: df) i = avgLead df i) := by
  refine ⟨fun r => ?_, fun r o d ho hd => ?_, fun df i h => ?_, fun df i r h => ?_⟩
  · unfold leadTimeDays
    cases r.dueDate <;> cases r.odrDate <;> simp
  · unfold leadTimeDays
    rw [ho, hd]
  · have hv : validLeadTimes (itemRows df i) = [] := by
      unfold validLeadTimes
      exact List.filterMap_eq_nil_iff.mpr h
    exact ⟨by unfold minLead; rw [hv]; rfl,
           by unfold maxLead; rw [hv]; rfl,
           by unfold avgLead; rw [hv]; rfl⟩
  · have hv : validLeadTimes (itemRows (r :: df) i) = validLeadTimes (itemRows df i) := by
      unfold validLeadTimes itemRows
      rw [List.filter_cons]
      split
      · rw [List.filterMap_cons_none h]
      · rfl
    exact ⟨by unfold minLead; rw [hv], by unfold maxLead; rw [hv],
           by unfold avgLead; rw [hv]⟩

/-- Witness for C7: the all-null-lead-time item group reports null statistics. -/
theorem lead_time_null_semantics_witness :
    minLead dfNullLead "ROPE" = none ∧ avgLead dfNullLead "ROPE" = none :=
  ⟨(lead_time_null_semantics.2.2.1 dfNullLead "ROPE" (by decide)).1,
   (lead_time_null_semantics.2.2.1 dfNullLead "ROPE" (by decide)).2.2⟩

/-- C10: a null-person record belongs to no per-person row (its group rows are
unchanged by adding it), yet every record contributes its numeric fields to
the grand-total sums; on a concrete null-person data frame the sum of person
rows and the grand total disagree. -/
theorem null_person_excluded_from_rows_counted_in_total :
    (∀ (df : List Record) (p : String) (r : Record), r ∈ personRows df p → r.person ≠ none) ∧
    (∀ (df : List Record) (p : String) (r : Record), r.person = none →
      personRows (r :: df) p = personRows df p) ∧
    (∀ (df : List Record) (r : Record),
      totalOrdWt (r :: df) = r.ordWt + totalOrdWt df ∧
      totalPendingOrd (r :: df) = pendingOrd r + totalPendingOrd df) ∧
    ((personKeys dfNullPerson).map fun p => ordWtSum dfNullPerson p).sum ≠
      totalOrdWt dfNullPerson := by
  refine ⟨fun df p r hr => ?_, fun df p r h => ?_, fun df r => ?_, ?_⟩
  · have h2 := (List.mem_filter.mp hr).2
    simp only [Bool.and_eq_true, beq_iff_eq] at h2
    rw [h2.1]
    exact Option.some_ne_none p
  · unfold personRows
    rw [List.filter_cons]
    split
    · rename_i hcond
      rw [h] at hcond
      simp at hcond
    · rfl
  · exact ⟨by simp [totalOrdWt, sumBy], by simp [totalPendingOrd, sumBy]⟩
  · norm_num [personKeys, dfNullPerson, totalOrdWt, sumBy, List.dedup_nil]

/-- Witness for C10: appending the null-person record to an empty frame leaves
the per-person rows unchanged. -/
theorem null_person_excluded_witness :
    personRows dfNullPerson "A" = personRows [] "A" ∧
    totalOrdWt dfNullPerson = (5 : ℚ) + totalOrdWt [] :=
  ⟨null_person_excluded_from_rows_counted_in_total.2.1 [] "A" _ rfl,
   (null_person_excluded_from_rows_counted_in_total.2.2.1 [] _).1⟩

lemma sumBy_cons (f : Record → ℚ) (a : Record) (l : List Record) :
    sumBy f (a :: l) = f a + sumBy f l := by
  simp [sumBy]

lemma sumBy_congr (f g : Record → ℚ) (l : List Record) (h : ∀ r ∈ l, f r = g r) :
    sumBy f l = sumBy g l := by
  unfold sumBy
  rw [List.map_congr_left h]

lemma sumBy_nonneg (f : Record → ℚ) (l : List Record) (h : ∀ r ∈ l, 0 ≤ f r) :
    0 ≤ sumBy f l := by
  apply List.sum_nonneg
  intro x hx
  obtain ⟨r, hr, rfl⟩ := List.mem_map.mp hx
  exact h r hr

/-- Summing the unclamped difference distributes over the three column sums. -/
lemma sumBy_raw_pending (l : List Record) :
    sumBy (fun r => r.ordWt - r.onTime - r.lateDel) l
      = sumBy Record.ordWt l - sumBy Record.onTime l - sumBy Record.lateDel l := by
  induction l with
  | nil => simp [sumBy]
  | cons a t ih =>
    rw [sumBy_cons, sumBy_cons, sumBy_cons, sumBy_cons, ih]
    ring

/-- The trailing `dropna(subset=[PERSON_COL])` on line 375 is redundant after
the equality mask, so `personRows` is the plain equality filter. -/
lemma personRows_eq_filter (df : List Record) (p : String) :
    personRows df p = df.filter (fun r => r.person == some p) := by
  unfold personRows
  apply List.filter_congr
  intro r _
  cases hr : r.person <;> simp [hr]

lemma sumBy_filter_or_disjoint (f : Record → ℚ) (p q : Record → Bool)
    (h : ∀ r, p r = true → q r = false) (df : List Record) :
    sumBy f (df.filter fun r => p r || q r)
      = sumBy f (df.filter p) + sumBy f (df.filter q) := by
  induction df with
  | nil => simp [sumBy]
  | cons a l ih =>
    cases hp : p a <;> cases hq : q a
    · simp [List.filter_cons, hp, hq, ih]
    · simp [List.filter_cons, hp, hq, sumBy_cons, ih]
      ring
    · simp [List.filter_cons, hp, hq, sumBy_cons, ih]
      ring
    · rw [h a hp] at hq
      exact absurd hq (by simp)

/-- Summing one numeric field over the group rows of a duplicate-free key list
equals the sum over the records whose person lies in the list. -/
lemma sum_over_keys (f : Record → ℚ) :
    ∀ (ks : List String) (df : List Record), ks.Nodup →
      ((ks.map fun k => sumBy f (personRows df k)).sum)
        = sumBy f (df.filter fun r => ks.any fun k => r.person == some k) := by
  intro ks
  induction ks with
  | nil =>
    intro df _
    simp [sumBy]
  | cons k ks ih =>
    intro df hnd
    have hk : k ∉ ks := (List.nodup_cons.mp hnd).1
    have hnd' : ks.Nodup := (List.nodup_cons.mp hnd).2
    have hdisj : ∀ r : Record, (r.person == some k) = true →
        (ks.any fun k' => r.person == some k') = false := by
      intro r hr
      rw [beq_iff_eq] at hr
      cases hany : (ks.any fun k' => r.person == some k') with
      | false => rfl
      | true =>
        exfalso
        obtain ⟨k', hk', heq⟩ := List.any_eq_true.mp hany
        rw [beq_iff_eq, hr] at heq
        exact hk (by rw [Option.some.inj heq]; exact hk')
    rw [List.map_cons, List.sum_cons, personRows_eq_filter, ih df hnd',
        ← sumBy_filter_or_disjoint f _ _ hdisj df]
    rfl

lemma personKeys_nodup (df : List Record) : (personKeys df).Nodup := by
  unfold personKeys
  exact ((List.perm_insertionSort _ _).nodup_iff).mpr (List.nodup_dedup _)

/-- When every record has a person, the person keys cover the whole frame. -/
lemma filter_personKeys (df : List Record)
    (h : ∀ r ∈ df, r.person.isSome = true) :
    (df.filter fun r => (personKeys df).any fun k => r.person == some k) = df := by
  apply List.filter_eq_self.mpr
  intro r hr
  obtain ⟨p, hp⟩ := Option.isSome_iff_exists.mp (h r hr)
  apply List.any_eq_true.mpr
  refine ⟨p, ?_, by rw [hp]; exact beq_self_eq_true (some p)⟩
  unfold personKeys
  rw [(List.perm_insertionSort _ _).mem_iff, List.mem_dedup]
  exact List.mem_filterMap.mpr ⟨r, hr, hp⟩

/-- C1 (amended): when every filtered record has a person — the person
dimension then partitions the filtered set — the per-person group sums of
`ORD WT`, `ON_TIME DEL` and `LATE_DEL` add up to the corresponding grand
totals; the pending column does so only under the extra assumption that no
record needed clamping, because the group value re-clamps the group sums
while the grand total sums the per-record clamped values. -/
theorem person_group_sums_match_grand_total (df : List Record)
    (h : ∀ r ∈ df, r.person.isSome = true) :
    ((personKeys df).map fun p => ordWtSum df p).sum = totalOrdWt df ∧
    ((personKeys df).map fun p => ontimeDelSum df p).sum = totalOntimeDel df ∧
    ((personKeys df).map fun p => lateDelSum df p).sum = totalLateDel df ∧
    ((∀ r ∈ df, 0 ≤ r.ordWt - r.onTime - r.lateDel) →
      ((personKeys df).map fun p => pendingOrdSum df p).sum = totalPendingOrd df) := by
  have key : ∀ f : Record → ℚ,
      ((personKeys df).map fun p => sumBy f (personRows df p)).sum = sumBy f df := by
    intro f
    rw [sum_over_keys f (personKeys df) df (personKeys_nodup df), filter_personKeys df h]
  refine ⟨key Record.ordWt, key Record.onTime, key Record.lateDel, fun hnn => ?_⟩
  have hgroup : ∀ p, pendingOrdSum df p = sumBy pendingOrd (personRows df p) := by
    intro p
    have hmem : ∀ r ∈ personRows df p, 0 ≤ r.ordWt - r.onTime - r.lateDel := by
      intro r hr
      exact hnn r (List.mem_filter.mp hr).1
    have hnnsum : 0 ≤ sumBy (fun r => r.ordWt - r.onTime - r.lateDel) (personRows df p) :=
      sumBy_nonneg _ _ hmem
    unfold pendingOrdSum ordWtSum ontimeDelSum lateDelSum
    rw [← sumBy_raw_pending, max_eq_right hnnsum]
    apply sumBy_congr
    intro r hr
    unfold pendingOrd
    rw [if_neg (not_lt.mpr (hmem r hr))]
  rw [List.map_congr_left fun p _ => hgroup p]
  exact key pendingOrd

/-- Witness for C1 at a concrete partitioned frame with no clamped record. -/
theorem person_group_sums_match_grand_total_witness :
    ((personKeys dfUnequal).map fun p => ordWtSum dfUnequal p).sum = totalOrdWt dfUnequal ∧
    ((personKeys dfUnequal).map fun p => pendingOrdSum dfUnequal p).sum
      = totalPendingOrd dfUnequal :=
  ⟨(person_group_sums_match_grand_total dfUnequal (by decide)).1,
   (person_group_sums_match_grand_total dfUnequal (by decide)).2.2.2
     (by
       intro r hr
       simp only [dfUnequal, List.mem_cons, List.not_mem_nil, or_false] at hr
       rcases hr with h | h <;> subst h <;> norm_num)⟩

/-- Counterexample to C1 as stated: the person dimension partitions
`dfClampPerson` (no null person), yet the sum of the per-person pending
values differs from the recomputed grand total of the pending column. -/
theorem person_group_pending_mismatch :
    (dfClampPerson.all fun r => r.person.isSome) = true ∧
    ((personKeys dfClampPerson).map fun p => pendingOrdSum dfClampPerson p).sum ≠
      totalPendingOrd dfClampPerson := by
  constructor
  · decide
  · have hkeys : personKeys dfClampPerson = ["A"] := by decide
    have hrows : personRows dfClampPerson "A" = dfClampPerson := by decide
    have hL : pendingOrdSum dfClampPerson "A" = 5 := by
      unfold pendingOrdSum ordWtSum ontimeDelSum lateDelSum
      rw [hrows]
      show max 0 ((10 : ℚ) + (0 + 0) - (0 + (5 + 0)) - (0 + (0 + 0))) = 5
      rw [max_eq_right (by norm_num)]
      norm_num
    have hR : totalPendingOrd dfClampPerson = 10 := by
      unfold totalPendingOrd
      show pendingOrd ⟨some "A", 10, 0, 0, "", "", "", "", none, none⟩ +
        (pendingOrd ⟨some "A", 0, 5, 0, "", "", "", "", none, none⟩ + 0) = 10
      rw [pendingOrd_eq_max, pendingOrd_eq_max]
      show max 0 ((10 : ℚ) - 0 - 0) + (max 0 ((0 : ℚ) - 5 - 0) + 0) = 10
      rw [max_eq_right (by norm_num), max_eq_left (by norm_num)]
      norm_num
    rw [hkeys, List.map_cons, List.map_nil, List.sum_cons, List.sum_nil, hL, hR]
    norm_num

/-- Counterexample to C5 as stated: on a frame whose `ODR DATE` column holds
only nulls the filter is not disabled — the `notna` conjunct of the mask
rejects every record, so the filtered set is empty, not the full set. -/
theorem all_null_dates_filter_empties :
    applyOrdDateFilter 0 10 dfNoOrdDates = [] ∧ dfNoOrdDates ≠ [] := by
  constructor
  · decide
  · decide

/-- C5 (amended): when a date column is present but holds no valid date, the
code keeps filtering with a default range and surfaces only an informational
message; since every record is null in that column, the `notna` requirement
excludes all of them and the filtered frame is empty for any window. -/
theorem all_null_dates_filter_always_empty :
    (∀ (df : List Record) (s e : ℤ), (∀ r ∈ df, r.odrDate = none) →
      applyOrdDateFilter s e df = []) ∧
    (∀ (df : List Record) (s e : ℤ), (∀ r ∈ df, r.dueDate = none) →
      applyDueDateFilter s e df = []) := by
  constructor
  · intro df s e h
    apply List.filter_eq_nil_iff.mpr
    intro r hr
    simp [passesOrdDateFilter, h r hr]
  · intro df s e h
    apply List.filter_eq_nil_iff.mpr
    intro r hr
    simp [passesDueDateFilter, h r hr]

/-- Witness for C5 on the concrete all-null-order-date frame. -/
theorem all_null_dates_filter_always_empty_witness :
    applyOrdDateFilter 3 7 dfNoOrdDates = [] :=
  all_null_dates_filter_always_empty.1 dfNoOrdDates 3 7 (by decide)

/-- Counterexample to C6 as stated: on `"1-"` the code keeps the non-leading
minus sign (regex keeps every `-`), so parsing fails and the cell becomes `0`;
the spec's leading-minus-only cleaning would yield `1`. -/
theorem numeric_coercion_minus_counterexample :
    coerceNumeric ['1', '-'] = 0 ∧ specCoerceNumeric ['1', '-'] = 1 ∧
    coerceNumeric ['1', '-'] ≠ specCoerceNumeric ['1', '-'] := by
  refine ⟨by decide, by decide, by decide⟩

/-- C6 (amended): the coercion removes every character that is not a digit, a
decimal point or a minus sign — minus signs are kept in any position, not only
a leading one — preserving order, then parses the remainder and substitutes
zero when the remainder is empty or unparseable. -/
theorem numeric_coercion_keeps_all_minus (s : List Char) :
    (∀ c ∈ charClean s, c.isDigit = true ∨ c = '.' ∨ c = '-') ∧
    (∀ c ∈ s, (c.isDigit = true ∨ c = '.' ∨ c = '-') → c ∈ charClean s) ∧
    (charClean s).Sublist s ∧
    (parseNum? (charClean s) = none → coerceNumeric s = 0) ∧
    (∀ q : ℚ, parseNum? (charClean s) = some q → coerceNumeric s = q) := by
  refine ⟨fun c hc => ?_, fun c hc hp => ?_, List.filter_sublist s, fun h => ?_, fun q h => ?_⟩
  · have h2 := (List.mem_filter.mp hc).2
    simp only [numericCleanChar, Bool.or_eq_true, beq_iff_eq] at h2
    tauto
  · apply List.mem_filter.mpr
    refine ⟨hc, ?_⟩
    simp only [numericCleanChar, Bool.or_eq_true, beq_iff_eq]
    tauto
  · unfold coerceNumeric
    rw [h]
    rfl
  · unfold coerceNumeric
    rw [h]
    rfl

/-- Witness for C6 at a concrete cell: a letter is dropped, the digit kept and
parsed. -/
theorem numeric_coercion_keeps_all_minus_witness :
    '7' ∈ charClean ['a', '7'] ∧ coerceNumeric ['a', '7'] = 7 :=
  ⟨(numeric_coercion_keeps_all_minus ['a', '7']).2.1 '7' (by decide) (by decide),
   (numeric_coercion_keeps_all_minus ['a', '7']).2.2.2.2 7 (by decide)⟩

/-- Counterexample to C8 as stated: `tNormalized` is already normalized
(duplicate-free stripped labels, non-blank first row), yet the normalization
operation promotes its second data row to labels and drops two rows, so the
result differs from the input. -/
theorem header_normalization_not_idempotent :
    isNormalizedTable tNormalized = true ∧ normalizeHeader tNormalized ≠ tNormalized := by
  constructor
  · decide
  · decide

/-- C8 (amended): only the strip/dedup stage of header normalization is
idempotent — on a table whose labels are already stripped and duplicate-free
it is the identity; the header-promotion stage always consumes two more rows,
so the full operation is not a no-op on an already-normalized table. -/
theorem strip_dedup_identity_on_normalized (t : List Column)
    (hstrip : ∀ c ∈ t, stripStr c.label = c.label)
    (hnodup : (t.map Column.label).Nodup) :
    dedupCols (stripCols t) [] = t := by
  have hs : stripCols t = t := by
    unfold stripCols
    have hid : ∀ c ∈ t, (fun c : Column => Column.mk (stripStr c.label) c.cells) c = id c := by
      intro c hc
      cases c with
      | mk lab cells =>
        simp only [id_eq]
        rw [hstrip _ hc]
    rw [List.map_congr_left hid, List.map_id]
  rw [hs]
  have main : ∀ (l : List Column) (seen : List String), (l.map Column.label).Nodup →
      (∀ c ∈ l, c.label ∉ seen) → dedupCols l seen = l := by
    intro l
    induction l with
    | nil =>
      intro seen _ _
      rfl
    | cons c cs ih =>
      intro seen hnd hsn
      rw [List.map_cons, List.nodup_cons] at hnd
      simp only [dedupCols]
      rw [if_neg (hsn c (List.mem_cons_self c cs))]
      congr 1
      apply ih _ hnd.2
      intro c' hc' hmem
      rcases List.mem_cons.mp hmem with h | h
      · exact hnd.1 (h ▸ List.mem_map_of_mem Column.label hc')
      · exact hsn c' (List.mem_cons_of_mem _ hc') h
  exact main t [] hnodup (fun c _ => List.not_mem_nil _)

/-- Witness for C8 on a concrete clean table. -/
theorem strip_dedup_identity_witness :
    dedupCols (stripCols [⟨"B", ["r"]⟩]) [] = [⟨"B", ["r"]⟩] :=
  strip_dedup_identity_on_normalized [⟨"B", ["r"]⟩] (by decide) (by decide)

end OrderDashboard
